import Mathlib

/-!
Verification of the ring-buffer console in src/main.c of the
stm32examples repository.

The embedding models the static state (the two uint16_t ring-buffer
cursors and the char array), the buffered line editor
get_buffered_line, the newlib stubs _read and _write, and the
busy-wait millisecond sleep.  Bytes are Nat values; the blocking byte
transport is modelled by an explicit list of incoming bytes (receive)
and a list of echoed bytes (send); a blocking receive on an exhausted
input list is modelled by Option.none.

Arithmetic follows the C semantics on the stm32 target: the uint16_t
cursors are promoted to 32-bit signed int before the subtraction in
the buf_len macro, and the C operator % is the truncated-division
remainder, so buf_len is Int.tmod of a possibly negative difference.
-/

/-- Buffer capacity constant BUFLEN = 127 (main.c line 25). -/
def BUFLEN : Nat := 127

/-- The static state of the ring buffer (main.c lines 27-29): the
uint16_t cursors start_ndx and end_ndx and the array char
buf[BUFLEN + 1].  Cursor values are Nat (they are always in
[0, BUFLEN) in reachable states); the array is a list of 128 byte
values. -/
structure St where
  start_ndx : Nat
  end_ndx : Nat
  buf : List Nat
deriving DecidableEq

/-- The initial state: C zero-initializes static variables. -/
def init_st : St :=
  ⟨0, 0, List.replicate (BUFLEN + 1) 0⟩

/-- The occupancy macro buf_len (main.c line 30), defined there as
((end_ndx - start_ndx) % BUFLEN).
Both cursors are uint16_t and are promoted to 32-bit signed int, so
the subtraction is a signed subtraction, and the C operator % is the
truncated-division remainder Int.tmod, negative when the difference is
negative. -/
def buf_len (st : St) : Int :=
  (((st.end_ndx : Int) - (st.start_ndx : Int)).tmod (BUFLEN : Int))

/-- inc_ndx (main.c line 31): ((n + 1) % BUFLEN). -/
def inc_ndx (n : Nat) : Nat := (n + 1) % BUFLEN

/-- dec_ndx (main.c line 32): (((n + BUFLEN) - 1) % BUFLEN). -/
def dec_ndx (n : Nat) : Nat := ((n + BUFLEN) - 1) % BUFLEN

/-- C library isspace in the default locale: space (32) and the
control characters 9..13 (tab, newline, vertical tab, form feed,
carriage return). -/
def isspace (c : Nat) : Bool :=
  c == 32 || (decide (9 ≤ c) && decide (c ≤ 13))

/-- back_up (main.c lines 114-120): decrement the write cursor via
dec_ndx and echo the three bytes backspace, space, backspace. -/
def back_up (st : St) : St × List Nat :=
  ({ st with end_ndx := dec_ndx st.end_ndx }, [8, 32, 8])

/-- The ^W (0x17) loop of get_buffered_line (main.c lines 160-164):
while ((buf_len > 0) && (!(isspace(buf[end_ndx])))) back_up();
The while loop is written with a fuel parameter.  For every state,
(buf_len st).toNat is at most BUFLEN - 1 and strictly decreases on
every iteration of the loop body, so calling with fuel BUFLEN never
reaches the fuel-exhausted case and the fuel form is exactly the C
loop. -/
def word_erase_loop : Nat → St → St × List Nat
  | 0, st => (st, [])
  | fuel + 1, st =>
    if 0 < buf_len st ∧ isspace (st.buf.getD st.end_ndx 0) = false then
      ((word_erase_loop fuel (back_up st).1).1,
        (back_up st).2 ++ (word_erase_loop fuel (back_up st).1).2)
    else (st, [])

/-- The ^U (0x15) loop of get_buffered_line (main.c lines 169-172):
while (buf_len > 0) back_up();  Fuel form exactly as in
word_erase_loop. -/
def line_erase_loop : Nat → St → St × List Nat
  | 0, st => (st, [])
  | fuel + 1, st =>
    if 0 < buf_len st then
      ((line_erase_loop fuel (back_up st).1).1,
        (back_up st).2 ++ (line_erase_loop fuel (back_up st).1).2)
    else (st, [])

/-- Result of dispatching one received byte inside get_buffered_line:
the new buffer state, the bytes sent to the transport, and whether the
line is complete (the function returns). -/
structure StepResult where
  st : St
  out : List Nat
  done : Bool
deriving DecidableEq

/-- One iteration of the while(1) dispatch in get_buffered_line
(main.c lines 135-187) on a received byte c:
carriage return 13 pushes a newline, writes a NUL sentinel at the new
end_ndx, echoes CR LF and completes the line; backspace 8 or DEL 127
alerts (7) on an empty buffer and otherwise backs up one character;
0x17 runs the word-erase loop; 0x15 runs the line-erase loop; any
other byte alerts and is discarded when buf_len == BUFLEN - 1 and is
otherwise stored at end_ndx and echoed verbatim. -/
def editor_step (st : St) (c : Nat) : StepResult :=
  if c = 13 then
    ⟨{ st with
        buf := (st.buf.set st.end_ndx 10).set (inc_ndx st.end_ndx) 0,
        end_ndx := inc_ndx st.end_ndx }, [13, 10], true⟩
  else if c = 8 ∨ c = 127 then
    if buf_len st = 0 then ⟨st, [7], false⟩
    else ⟨(back_up st).1, (back_up st).2, false⟩
  else if c = 23 then
    ⟨(word_erase_loop BUFLEN st).1, (word_erase_loop BUFLEN st).2, false⟩
  else if c = 21 then
    ⟨(line_erase_loop BUFLEN st).1, (line_erase_loop BUFLEN st).2, false⟩
  else
    if buf_len st = (BUFLEN : Int) - 1 then ⟨st, [7], false⟩
    else
      ⟨{ st with
          buf := st.buf.set st.end_ndx c,
          end_ndx := inc_ndx st.end_ndx }, [c], false⟩

/-- Result of a completed get_buffered_line call: the final state, the
bytes echoed to the transport, and the unconsumed transport input. -/
structure LineResult where
  st : St
  echo : List Nat
  rest : List Nat
deriving DecidableEq

/-- The while(1) loop of get_buffered_line: receive one byte at a time
and dispatch it until a carriage return completes the line.  The
blocking usart receive is modelled by the input list; none models the
C code blocking forever on an exhausted transport. -/
def gbl_loop : St → List Nat → Option LineResult
  | _, [] => none
  | st, c :: rest =>
    if (editor_step st c).done then
      some ⟨(editor_step st c).st, (editor_step st c).out, rest⟩
    else
      match gbl_loop (editor_step st c).st rest with
      | none => none
      | some r2 => some ⟨r2.st, (editor_step st c).out ++ r2.echo, r2.rest⟩

/-- get_buffered_line (main.c lines 125-189): if the previous line is
not fully drained (start_ndx != end_ndx) return immediately without
receiving or sending anything; otherwise run the editing loop. -/
def get_buffered_line (st : St) (input : List Nat) : Option LineResult :=
  if st.start_ndx ≠ st.end_ndx then some ⟨st, [], input⟩
  else gbl_loop st input

/-- Run the per-byte dispatch over a list of bytes, collecting the
echo: an observer used to examine the editor state in the middle of a
line, before any terminating carriage return has arrived. -/
def editor_steps : St → List Nat → St × List Nat
  | st, [] => (st, [])
  | st, c :: cs =>
    ((editor_steps (editor_step st c).st cs).1,
      (editor_step st c).out ++ (editor_steps (editor_step st c).st cs).2)

/-- The copy loop of _write (main.c lines 208-217):
while (*ptr && (i < len)) { send *ptr; if (*ptr == newline) send CR;
i++; ptr++; }  The source memory at ptr is the list; i counts source
bytes consumed and is the return value. -/
def write_loop : List Nat → Int → Int → List Nat × Int
  | [], _, i => ([], i)
  | b :: rest, len, i =>
    if b ≠ 0 ∧ i < len then
      ((if b = 10 then [b, 13] else [b]) ++ (write_loop rest len (i + 1)).1,
        (write_loop rest len (i + 1)).2)
    else ([], i)

/-- _write (main.c lines 194-219): reject fd > 2 with -1, otherwise
run the copy loop; returns the bytes sent to the transport and the int
return value. -/
def _write (fd : Int) (ptr : List Nat) (len : Int) : List Nat × Int :=
  if fd > 2 then ([], -1) else write_loop ptr len 0

/-- The drain loop of _read (main.c lines 237-243):
while ((buf_len > 0) && (len > 0)) { *ptr++ = buf[start_ndx];
start_ndx = inc_ndx(start_ndx); my_len++; len--; }
Returns the final state and the bytes copied to the destination. -/
def read_drain : St → Nat → St × List Nat
  | st, 0 => (st, [])
  | st, len + 1 =>
    if 0 < buf_len st then
      ((read_drain { st with start_ndx := inc_ndx st.start_ndx } len).1,
        st.buf.getD st.start_ndx 0 ::
          (read_drain { st with start_ndx := inc_ndx st.start_ndx } len).2)
    else (st, [])

/-- The buffered bytes as _read would drain them (up to the full
capacity): an observer for stating theorems about buffered content. -/
def contents (st : St) : List Nat := (read_drain st BUFLEN).2

/-- Result of a completed _read call: final state, bytes echoed by the
line editor, unconsumed transport input, bytes copied to the
destination, and the int return value. -/
structure ReadResult where
  st : St
  echo : List Nat
  rest : List Nat
  dest : List Nat
  ret : Int
deriving DecidableEq

/-- _read (main.c lines 226-245): reject fd > 2 with -1; otherwise
call get_buffered_line and then drain up to len bytes; none models
get_buffered_line blocking forever on an exhausted transport. -/
def _read (fd : Int) (st : St) (input : List Nat) (len : Nat) :
    Option ReadResult :=
  if fd > 2 then some ⟨st, [], input, [], -1⟩
  else
    match get_buffered_line st input with
    | none => none
    | some r =>
      some ⟨(read_drain r.st len).1, r.echo, r.rest, (read_drain r.st len).2,
        ((read_drain r.st len).2.length : Int)⟩

/-- Modulus of the uint32_t millisecond counter system_millis. -/
def UINT32 : Nat := 2 ^ 32

/-- The value of the volatile uint32_t counter system_millis t ticks
after the msleep call, when it read m0 at the call: sys_tick_handler
(main.c lines 35-38) increments it once per tick, wrapping at 2^32. -/
def system_millis_at (m0 t : Nat) : Nat := (m0 + t) % UINT32

/-- The deadline computed by msleep (main.c line 42):
uint32_t wake = system_millis + delay, wrapping at 2^32. -/
def msleep_wake (m0 delay : Nat) : Nat := (m0 + delay) % UINT32

/-- The busy-wait guard of msleep (main.c line 43) evaluated t ticks
after the call: wake > system_millis. -/
def msleep_spinning (m0 delay t : Nat) : Bool :=
  decide (system_millis_at m0 t < msleep_wake m0 delay)

/-- msleep(delay), entered when the counter read m0, returns after
exactly t ticks: the guard fails at t and held at every earlier
tick. -/
def msleep_returns_at (m0 delay t : Nat) : Prop :=
  msleep_spinning m0 delay t = false ∧
    ∀ u, u < t → msleep_spinning m0 delay u = true

/-! Helper lemmas about the index arithmetic. -/

/-- With both cursors inside [0, BUFLEN), the difference is strictly
between -BUFLEN and BUFLEN, so the truncated remainder is the
difference itself: buf_len is end_ndx - start_ndx as a signed value,
negative whenever end_ndx < start_ndx. -/
theorem buf_len_eq (st : St) (hs : st.start_ndx < BUFLEN)
    (he : st.end_ndx < BUFLEN) :
    buf_len st = (st.end_ndx : Int) - (st.start_ndx : Int) := by
  unfold buf_len BUFLEN at *
  set s := st.start_ndx with hsdef
  set e := st.end_ndx with hedef
  rcases le_or_lt s e with h | h
  · have h1 : ((e : Int) - s) = Int.ofNat (e - s) := by
      rw [Int.ofNat_eq_natCast]; omega
    rw [h1, show ((127 : Nat) : Int) = Int.ofNat 127 from rfl]
    rw [show (Int.ofNat (e - s)).tmod (Int.ofNat 127) =
        Int.ofNat ((e - s) % 127) from rfl]
    have h3 : (e - s) % 127 = e - s := Nat.mod_eq_of_lt (by omega)
    rw [h3]
  · have h1 : ((e : Int) - s) = Int.negSucc (s - e - 1) := by
      rw [Int.negSucc_eq]; omega
    rw [h1, show ((127 : Nat) : Int) = Int.ofNat 127 from rfl]
    rw [show (Int.negSucc (s - e - 1)).tmod (Int.ofNat 127) =
        -Int.ofNat ((s - e - 1 + 1) % 127) from rfl]
    have h3 : (s - e - 1 + 1) % 127 = s - e := by omega
    rw [h3, Int.ofNat_eq_natCast, Int.negSucc_eq]
    omega

/-- A buffer with equal cursors has occupancy zero. -/
theorem buf_len_empty (st : St) (h : st.start_ndx = st.end_ndx) :
    buf_len st = 0 := by
  unfold buf_len
  rw [h, sub_self]
  rfl

/-- dec_ndx is plain decrement away from the wrap point. -/
theorem dec_ndx_eq (n : Nat) (h1 : 1 ≤ n) (h2 : n < BUFLEN) :
    dec_ndx n = n - 1 := by
  unfold dec_ndx BUFLEN at *
  omega

/-- Both erase loops are no-ops when their guard is false. -/
theorem word_erase_loop_stop (fuel : Nat) (st : St)
    (h : ¬(0 < buf_len st ∧ isspace (st.buf.getD st.end_ndx 0) = false)) :
    word_erase_loop fuel st = (st, []) := by
  cases fuel with
  | zero => rfl
  | succ f =>
    simp only [word_erase_loop]
    rw [if_neg h]

theorem line_erase_loop_stop (fuel : Nat) (st : St)
    (h : ¬(0 < buf_len st)) :
    line_erase_loop fuel st = (st, []) := by
  cases fuel with
  | zero => rfl
  | succ f =>
    simp only [line_erase_loop]
    rw [if_neg h]

/-- Unfolding editor_step at the word-erase byte. -/
theorem editor_step_word (st : St) :
    editor_step st 23 =
      ⟨(word_erase_loop BUFLEN st).1, (word_erase_loop BUFLEN st).2, false⟩ := rfl

/-- Unfolding editor_step at the line-erase byte. -/
theorem editor_step_line (st : St) :
    editor_step st 21 =
      ⟨(line_erase_loop BUFLEN st).1, (line_erase_loop BUFLEN st).2, false⟩ := rfl

/-- Unfolding editor_step at the backspace byte. -/
theorem editor_step_bs (st : St) :
    editor_step st 8 =
      if buf_len st = 0 then ⟨st, [7], false⟩
      else ⟨(back_up st).1, (back_up st).2, false⟩ := rfl

/-- Unfolding editor_step at the DEL byte. -/
theorem editor_step_del (st : St) :
    editor_step st 127 =
      if buf_len st = 0 then ⟨st, [7], false⟩
      else ⟨(back_up st).1, (back_up st).2, false⟩ := rfl

/-- Unfolding editor_step at an ordinary, non-editing byte. -/
theorem editor_step_other (st : St) (c : Nat) (h13 : c ≠ 13) (h8 : c ≠ 8)
    (h127 : c ≠ 127) (h23 : c ≠ 23) (h21 : c ≠ 21) :
    editor_step st c =
      if buf_len st = (BUFLEN : Int) - 1 then ⟨st, [7], false⟩
      else
        ⟨{ st with
            buf := st.buf.set st.end_ndx c,
            end_ndx := inc_ndx st.end_ndx }, [c], false⟩ := by
  unfold editor_step
  rw [if_neg h13, if_neg (by tauto : ¬(c = 8 ∨ c = 127)), if_neg h23,
    if_neg h21]

/-- Full characterization of the ^W loop run with enough fuel: it
performs some number k of back_up calls (so the write cursor drops by
k, the stored bytes and the read cursor are untouched, and the echo is
k copies of the visual-erase triple), and it stops exactly when its
guard is false: occupancy no longer positive, or the byte stored at
the new write-cursor slot buf[end_ndx] tests as whitespace.  The
hypothesis (buf_len st).toNat < fuel is satisfied by fuel = BUFLEN for
every in-range state. -/
theorem word_erase_loop_spec (fuel : Nat) (st : St)
    (hs : st.start_ndx < BUFLEN) (he : st.end_ndx < BUFLEN)
    (hfuel : (buf_len st).toNat < fuel) :
    ∃ k, k ≤ st.end_ndx ∧
      (word_erase_loop fuel st).1.start_ndx = st.start_ndx ∧
      (word_erase_loop fuel st).1.end_ndx = st.end_ndx - k ∧
      (word_erase_loop fuel st).1.buf = st.buf ∧
      (word_erase_loop fuel st).2 =
        (List.replicate k ([8, 32, 8] : List Nat)).flatten ∧
      ¬(0 < buf_len (word_erase_loop fuel st).1 ∧
        isspace ((word_erase_loop fuel st).1.buf.getD
          (word_erase_loop fuel st).1.end_ndx 0) = false) := by
  induction fuel generalizing st with
  | zero => exact absurd hfuel (Nat.not_lt_zero _)
  | succ f ih =>
    by_cases h : 0 < buf_len st ∧ isspace (st.buf.getD st.end_ndx 0) = false
    · have hbl := buf_len_eq st hs he
      have hlt : st.start_ndx < st.end_ndx := by
        have h1 := h.1
        rw [hbl] at h1
        omega
      have he1 : (back_up st).1.end_ndx = st.end_ndx - 1 := by
        show dec_ndx st.end_ndx = st.end_ndx - 1
        exact dec_ndx_eq st.end_ndx (by omega) he
      have hs1 : (back_up st).1.start_ndx = st.start_ndx := rfl
      have hb1 : (back_up st).1.buf = st.buf := rfl
      have hss1 : (back_up st).1.start_ndx < BUFLEN := by rw [hs1]; exact hs
      have hee1 : (back_up st).1.end_ndx < BUFLEN := by rw [he1]; omega
      have hf1 : (buf_len (back_up st).1).toNat < f := by
        have h2 := buf_len_eq (back_up st).1 hss1 hee1
        rw [h2, hs1, he1]
        rw [hbl] at hfuel
        omega
      obtain ⟨k, hk, h1, h2, h3, h4, h5⟩ := ih (back_up st).1 hss1 hee1 hf1
      rw [he1] at hk h2
      have hred : word_erase_loop (f + 1) st =
          ((word_erase_loop f (back_up st).1).1,
            (back_up st).2 ++ (word_erase_loop f (back_up st).1).2) := by
        simp only [word_erase_loop]
        rw [if_pos h]
      refine ⟨k + 1, by omega, ?_, ?_, ?_, ?_, ?_⟩
      · rw [hred]
        rw [show ((word_erase_loop f (back_up st).1).1,
          (back_up st).2 ++ (word_erase_loop f (back_up st).1).2).1 =
          (word_erase_loop f (back_up st).1).1 from rfl, h1, hs1]
      · rw [hred]
        show (word_erase_loop f (back_up st).1).1.end_ndx = _
        rw [h2]
        omega
      · rw [hred]
        show (word_erase_loop f (back_up st).1).1.buf = _
        rw [h3, hb1]
      · rw [hred]
        show (back_up st).2 ++ (word_erase_loop f (back_up st).1).2 = _
        rw [h4]
        rw [show (back_up st).2 = ([8, 32, 8] : List Nat) from rfl]
        rw [List.replicate_succ, List.flatten_cons]
      · rw [hred]
        exact h5
    · have hred : word_erase_loop (f + 1) st = (st, []) := by
        simp only [word_erase_loop]
        rw [if_neg h]
      refine ⟨0, Nat.zero_le _, ?_, ?_, ?_, ?_, ?_⟩
      · rw [hred]
      · rw [hred]
        show st.end_ndx = st.end_ndx - 0
        omega
      · rw [hred]
      · rw [hred]
        rfl
      · rw [hred]
        exact h

/-- Closed form of the _write copy loop: the bytes consumed are the
leading nonzero run of the source truncated to the remaining budget
len - i; each consumed byte is sent, a carriage return is sent right
after each newline, and the returned counter is i plus the number of
source bytes consumed. -/
theorem write_loop_eq (ptr : List Nat) (len i : Int) :
    write_loop ptr len i =
      (((ptr.takeWhile (fun b => b != 0)).take (len - i).toNat).flatMap
          (fun b => if b = 10 then [b, 13] else [b]),
        i + (((ptr.takeWhile (fun b => b != 0)).take
          (len - i).toNat).length : Int)) := by
  induction ptr generalizing i with
  | nil => simp [write_loop]
  | cons b rest ih =>
    by_cases hb : b = 0
    · subst hb
      simp [write_loop, List.takeWhile_cons]
    · by_cases hi : i < len
      · have hguard : (b ≠ 0 ∧ i < len) := ⟨hb, hi⟩
        have h1 : (len - i).toNat = (len - (i + 1)).toNat + 1 := by omega
        simp only [write_loop]
        rw [if_pos hguard, ih (i + 1)]
        rw [List.takeWhile_cons]
        rw [show (b != 0) = true by simpa using hb]
        simp only [if_true]
        rw [h1, List.take_succ_cons, List.flatMap_cons, List.length_cons]
        refine Prod.ext rfl ?_
        push_cast
        ring
      · simp only [write_loop]
        rw [if_neg (by tauto)]
        have h0 : (len - i).toNat = 0 := by omega
        rw [h0]
        simp

/-- C6: whenever start_ndx differs from end_ndx, get_buffered_line
returns immediately: it consumes no transport input, sends nothing,
and leaves the whole buffer state unchanged, so a repeated call in
such a state is the same no-op. -/
theorem fill_line_reentrant_noop (st : St) (input : List Nat)
    (h : st.start_ndx ≠ st.end_ndx) :
    get_buffered_line st input = some ⟨st, [], input⟩ := by
  unfold get_buffered_line
  rw [if_pos h]

/-- Witness for fill_line_reentrant_noop at a concrete undrained
state. -/
theorem fill_line_reentrant_noop_witness :
    get_buffered_line ⟨0, 1, []⟩ [5] = some ⟨⟨0, 1, []⟩, [], [5]⟩ :=
  fill_line_reentrant_noop ⟨0, 1, []⟩ [5] (by decide)

/-- C7: for each standard stream 0, 1, 2, _write consumes the leading
nonzero run of the source truncated to len bytes, sends each consumed byte
with a carriage return inserted right after each newline, and returns
the number of source bytes consumed (not the number of bytes
transmitted). -/
theorem write_normalization (fd : Int) (hl : 0 ≤ fd) (hr : fd ≤ 2)
    (ptr : List Nat) (len : Int) :
    _write fd ptr len =
      (((ptr.takeWhile (fun b => b != 0)).take len.toNat).flatMap
          (fun b => if b = 10 then [b, 13] else [b]),
        (((ptr.takeWhile (fun b => b != 0)).take len.toNat).length : Int)) := by
  unfold _write
  rw [if_neg (by omega)]
  rw [write_loop_eq]
  norm_num

/-- Witness for write_normalization: writing the three bytes A, LF, B
with len 3 transmits A, LF, CR, B and returns 3. -/
theorem write_normalization_witness :
    _write 1 [65, 10, 66] 3 = ([65, 10, 13, 66], 3) :=
  (write_normalization 1 (by decide) (by decide) [65, 10, 66] 3).trans
    (by decide)

/-- C8 (amended): every file identifier strictly greater than 2 is
rejected by both stubs with -1 and with no transport traffic and no
buffer mutation.  (The code only checks fd > 2, so this does not
extend to negative identifiers; see negative_fd_not_rejected.) -/
theorem fd_above_two_rejected (fd : Int) (h : 2 < fd) :
    (∀ ptr len, _write fd ptr len = ([], -1)) ∧
    (∀ st input len, _read fd st input len = some ⟨st, [], input, [], -1⟩) := by
  constructor
  · intro ptr len
    unfold _write
    rw [if_pos h]
  · intro st input len
    unfold _read
    rw [if_pos h]

/-- Witness for fd_above_two_rejected at fd = 3. -/
theorem fd_above_two_rejected_witness :
    _write 3 [65] 1 = ([], -1) ∧
    _read 3 init_st [] 5 = some ⟨init_st, [], [], [], -1⟩ :=
  ⟨(fd_above_two_rejected 3 (by decide)).1 [65] 1,
    (fd_above_two_rejected 3 (by decide)).2 init_st [] 5⟩

/-- C8 counterexample: fd = -1 is not one of the standard streams 0,
1, 2, yet _write(-1, "A", 1) is not rejected: it sends the byte to the
transport and returns 1, not a negative sentinel. -/
theorem negative_fd_not_rejected :
    _write (-1) [65] 1 = ([65], 1) ∧ ¬((_write (-1) [65] 1).2 < 0) := by
  decide

/-- C9: with the millisecond counter at its maximum value 2^32 - 1
when msleep(2) is called, the computed wake deadline wraps around to
1, the busy-wait guard is already false, and msleep returns after 0
ticks, before the counter has advanced by the requested 2 ticks. -/
theorem msleep_wraparound_early_return :
    msleep_returns_at (UINT32 - 1) 2 0 ∧ (0 : Nat) < 2 := by
  refine ⟨⟨?_, ?_⟩, by decide⟩
  · decide
  · intro u hu
    exact absurd hu (Nat.not_lt_zero u)

/-- C10: on an empty buffer (equal cursors) the word-erase byte 0x17
and the line-erase byte 0x15 are completely silent no-ops (no alert,
no echo, state unchanged), while the erase-character bytes 8 and 127
leave the state unchanged but do emit one alert byte. -/
theorem empty_erase_word_line_silent (st : St)
    (h : st.start_ndx = st.end_ndx) :
    editor_step st 23 = ⟨st, [], false⟩ ∧
    editor_step st 21 = ⟨st, [], false⟩ ∧
    editor_step st 8 = ⟨st, [7], false⟩ ∧
    editor_step st 127 = ⟨st, [7], false⟩ := by
  have h0 : buf_len st = 0 := buf_len_empty st h
  have hw : word_erase_loop BUFLEN st = (st, []) :=
    word_erase_loop_stop BUFLEN st (by rw [h0]; simp)
  have hl : line_erase_loop BUFLEN st = (st, []) :=
    line_erase_loop_stop BUFLEN st (by rw [h0]; exact lt_irrefl 0)
  refine ⟨?_, ?_, ?_, ?_⟩
  · rw [editor_step_word, hw]
  · rw [editor_step_line, hl]
  · rw [editor_step_bs, if_pos h0]
  · rw [editor_step_del, if_pos h0]

/-- Witness for empty_erase_word_line_silent at the initial state. -/
theorem empty_erase_word_line_silent_witness :
    editor_step init_st 23 = ⟨init_st, [], false⟩ ∧
    editor_step init_st 21 = ⟨init_st, [], false⟩ ∧
    editor_step init_st 8 = ⟨init_st, [7], false⟩ ∧
    editor_step init_st 127 = ⟨init_st, [7], false⟩ :=
  empty_erase_word_line_silent init_st rfl

/-- Reachable-state trace for the occupancy invariant: starting from
the initial state, fill a line of 125 ordinary bytes plus carriage
return, drain all 126 buffered bytes through _read, then fill the
one-character line X plus carriage return.  The write cursor wraps
past BUFLEN, leaving start_ndx = 126, end_ndx = 1. -/
def wrap_trace : Option St :=
  (get_buffered_line init_st (List.replicate 125 97 ++ [13])).bind fun r1 =>
    (_read 0 r1.st [] 126).bind fun r2 =>
      (get_buffered_line r2.st [88, 13]).map fun r3 => r3.st

set_option maxRecDepth 100000 in
/-- C1: in the reachable state left by wrap_trace the buf_len expression of the code
expression evaluates to -125: it is negative, it is not the
mathematical residue (end_ndx - start_ndx) mod 127 = 2, and a
subsequent _read of the 2 buffered bytes returns 0 bytes, so the
claimed occupancy invariant fails on the code. -/
theorem ring_occupancy_wrap_bug :
    wrap_trace.map (fun st => (st.start_ndx, st.end_ndx)) = some (126, 1) ∧
    wrap_trace.map buf_len = some (-125) ∧
    wrap_trace.map (fun st =>
      ((st.end_ndx : Int) - st.start_ndx).emod (BUFLEN : Int)) = some 2 ∧
    (wrap_trace.bind fun st =>
      (_read 0 st [] 10).map fun r => r.ret) = some 0 := by
  decide

/-- C4: from the empty buffer state with both cursors at 126, the two
ordinary bytes A and B are both accepted and echoed by the line
editor, yet the occupancy expression buf_len evaluates to -125 rather
than 2, and draining 2 bytes through _read yields no bytes and
returns 0 instead of yielding A, B in order. -/
theorem fifo_wrap_bug :
    (editor_steps ⟨126, 126, List.replicate (BUFLEN + 1) 0⟩ [65, 66]).2 =
      [65, 66] ∧
    buf_len (editor_steps ⟨126, 126, List.replicate (BUFLEN + 1) 0⟩
      [65, 66]).1 = -125 ∧
    (_read 0 (editor_steps ⟨126, 126, List.replicate (BUFLEN + 1) 0⟩
        [65, 66]).1 [] 2).map (fun r => (r.dest, r.ret)) =
      some ([], 0) := by
  decide

/-- C5 counterexample: after the editor consumes h, i, CR, a single
_read with room for 10 bytes returns 3 bytes, not the 2 bytes the
claim states. -/
theorem read_hi_returns_three :
    (_read 0 init_st [104, 105, 13] 10).map (fun r => r.ret) = some 3 ∧
    ((3 : Int) ≠ 2) := by
  decide

/-- C5 (amended): feeding h, i, CR through _read with room for 10
bytes yields all 3 bytes of the line "hi" plus newline in that single
call, returns 3, echoes h, i, CR, LF to the transport, and leaves the
buffer empty (both cursors at 3) with no transport input left. -/
theorem read_hi_amended :
    (_read 0 init_st [104, 105, 13] 10).map
        (fun r => (r.dest, r.ret, r.echo, r.st.start_ndx, r.st.end_ndx,
          r.rest)) =
      some ([104, 105, 10], 3, [104, 105, 13, 10], 3, 3, []) := by
  decide

/-- C2 counterexample: typing the seven bytes of "foo bar" into a
fresh buffer and then the erase-word byte 0x17 leaves the buffered
content "foo": the separating space is erased too, not retained as
the claim states. -/
theorem word_erase_foo_bar_result :
    contents (editor_steps init_st [102, 111, 111, 32, 98, 97, 114, 23]).1 =
      [102, 111, 111] ∧
    contents (editor_steps init_st [102, 111, 111, 32, 98, 97, 114, 23]).1 ≠
      [102, 111, 111, 32] := by
  decide

set_option maxRecDepth 100000 in
/-- C3 counterexample: after 125 ordinary bytes (occupancy
BUFLEN - 2 = 125) the next ordinary byte is not rejected: it is
pushed and echoed, raising the occupancy to 126, so rejection does
not happen at occupancy C - 2 as the claim states. -/
theorem capacity_at_125_accepts :
    buf_len (editor_steps init_st (List.replicate 125 97)).1 = 125 ∧
    (editor_step (editor_steps init_st (List.replicate 125 97)).1 98).out =
      [98] ∧
    buf_len (editor_step (editor_steps init_st
      (List.replicate 125 97)).1 98).st = 126 := by
  decide

set_option maxRecDepth 100000 in
/-- C2 (amended): on receiving the erase-word byte 0x17 the editor
performs some number k of back_up calls - the read cursor and the
stored bytes are untouched, the write cursor drops by k, and the echo
is k copies of the three-byte visual-erase sequence - and it stops
exactly when occupancy (the buf_len expression of the code) is no longer positive or
the byte stored at the write-cursor slot buf[end_ndx], which is the
most recently erased slot rather than the most recently pushed
character, tests as whitespace.  Consequently "foo bar" typed into the
fresh zeroed buffer followed by one erase-word leaves "foo": the
separating space is removed as well. -/
theorem word_erase_amended :
    (∀ st : St, st.start_ndx < BUFLEN → st.end_ndx < BUFLEN →
      (editor_step st 23).done = false ∧
      (editor_step st 23).st.start_ndx = st.start_ndx ∧
      (editor_step st 23).st.buf = st.buf ∧
      (∃ k, k ≤ st.end_ndx ∧
        (editor_step st 23).st.end_ndx = st.end_ndx - k ∧
        (editor_step st 23).out =
          (List.replicate k ([8, 32, 8] : List Nat)).flatten) ∧
      ¬(0 < buf_len (editor_step st 23).st ∧
        isspace ((editor_step st 23).st.buf.getD
          (editor_step st 23).st.end_ndx 0) = false)) ∧
    contents (editor_steps init_st [102, 111, 111, 32, 98, 97, 114, 23]).1 =
      [102, 111, 111] := by
  constructor
  · intro st hs he
    have hfuel : (buf_len st).toNat < BUFLEN := by
      have hbl := buf_len_eq st hs he
      unfold BUFLEN at *
      omega
    obtain ⟨k, hk, h1, h2, h3, h4, h5⟩ :=
      word_erase_loop_spec BUFLEN st hs he hfuel
    rw [editor_step_word]
    exact ⟨rfl, h1, h3, ⟨k, hk, h2, h4⟩, h5⟩
  · decide

/-- Witness for word_erase_amended, instantiated at the state reached
by typing "foo bar" into a fresh buffer. -/
theorem word_erase_amended_witness :
    (editor_step (editor_steps init_st
        [102, 111, 111, 32, 98, 97, 114]).1 23).done = false ∧
    (editor_step (editor_steps init_st
        [102, 111, 111, 32, 98, 97, 114]).1 23).st.start_ndx =
      (editor_steps init_st [102, 111, 111, 32, 98, 97, 114]).1.start_ndx ∧
    (editor_step (editor_steps init_st
        [102, 111, 111, 32, 98, 97, 114]).1 23).st.buf =
      (editor_steps init_st [102, 111, 111, 32, 98, 97, 114]).1.buf ∧
    (∃ k, k ≤ (editor_steps init_st
        [102, 111, 111, 32, 98, 97, 114]).1.end_ndx ∧
      (editor_step (editor_steps init_st
          [102, 111, 111, 32, 98, 97, 114]).1 23).st.end_ndx =
        (editor_steps init_st
          [102, 111, 111, 32, 98, 97, 114]).1.end_ndx - k ∧
      (editor_step (editor_steps init_st
          [102, 111, 111, 32, 98, 97, 114]).1 23).out =
        (List.replicate k ([8, 32, 8] : List Nat)).flatten) ∧
    ¬(0 < buf_len (editor_step (editor_steps init_st
        [102, 111, 111, 32, 98, 97, 114]).1 23).st ∧
      isspace ((editor_step (editor_steps init_st
          [102, 111, 111, 32, 98, 97, 114]).1 23).st.buf.getD
        (editor_step (editor_steps init_st
          [102, 111, 111, 32, 98, 97, 114]).1 23).st.end_ndx 0) = false) :=
  word_erase_amended.1 (editor_steps init_st
    [102, 111, 111, 32, 98, 97, 114]).1 (by decide) (by decide)

set_option maxRecDepth 100000 in
/-- C3 (amended): an ordinary (non-editing, non-carriage-return) byte
is discarded with exactly one alert byte and a completely unchanged
state when the occupancy expression buf_len equals BUFLEN - 1 = 126,
and is otherwise stored at end_ndx (which advances) and echoed
verbatim; from the empty initial buffer, the first 126 ordinary bytes
are all accepted and echoed, and the 127th is rejected with an
alert. -/
theorem capacity_amended :
    (∀ (st : St) (c : Nat), c ≠ 13 → c ≠ 8 → c ≠ 127 → c ≠ 23 → c ≠ 21 →
      (buf_len st = (BUFLEN : Int) - 1 → editor_step st c = ⟨st, [7], false⟩) ∧
      (buf_len st ≠ (BUFLEN : Int) - 1 →
        editor_step st c =
          ⟨{ st with
              buf := st.buf.set st.end_ndx c,
              end_ndx := inc_ndx st.end_ndx }, [c], false⟩)) ∧
    (editor_steps init_st (List.replicate 126 97)).2 =
      List.replicate 126 97 ∧
    buf_len (editor_steps init_st (List.replicate 126 97)).1 = 126 ∧
    editor_step (editor_steps init_st (List.replicate 126 97)).1 98 =
      ⟨(editor_steps init_st (List.replicate 126 97)).1, [7], false⟩ := by
  refine ⟨?_, by decide⟩
  intro st c h13 h8 h127 h23 h21
  rw [editor_step_other st c h13 h8 h127 h23 h21]
  constructor
  · intro hf
    rw [if_pos hf]
  · intro hf
    rw [if_neg hf]

/-- Witness for capacity_amended at a concrete full buffer. -/
theorem capacity_amended_witness :
    editor_step ⟨0, 126, List.replicate (BUFLEN + 1) 0⟩ 65 =
      ⟨⟨0, 126, List.replicate (BUFLEN + 1) 0⟩, [7], false⟩ :=
  (capacity_amended.1 ⟨0, 126, List.replicate (BUFLEN + 1) 0⟩ 65
    (by decide) (by decide) (by decide) (by decide) (by decide)).1 (by decide)
